import Mathlib

/-!
Verification of the REST-framework binding layer.

This file gives a shallow embedding, in Lean 4, of the two Python modules
of the repository:

* `base_rest/restapi.py` — the `method` decorator that attaches routing
  metadata to a handler, the `RestMethodParam` transformers `BinaryData`
  and `CerberusValidator`, and the OpenAPI description helpers;
* `base_rest_auth_api_key/apispec/rest_method_security_plugin.py` — the
  apispec plugin that injects per-operation security requirements.

Python dictionaries are embedded as association lists (`List (String × α)`)
with first-match lookup, Python `None`/falsiness is made explicit, and
Python exceptions are embedded with `Except`.  External collaborators that
the repository only calls (the cerberus `Validator`, the odoo
`http.content_disposition` / `make_response` helpers, the apispec
`BasePlugin`) are modelled from the description the specification gives of  their interface boundary;
each such definition is marked `Modelled from the spec:` in its doc string.
-/

namespace RestFramework

/-- A JSON-like value: the payloads, schema fragments and option values that
flow through the layer. -/
inductive JsonVal where
  | str (s : String)
  | num (n : Int)
  | bool (b : Bool)
  | null
  | arr (xs : List JsonVal)
  | obj (fields : List (String × JsonVal))

mutual

/-- Structural (Python `==`) equality on JSON-like values. -/
def jsonBeq : JsonVal → JsonVal → Bool
  | JsonVal.str a, JsonVal.str b => a == b
  | JsonVal.num a, JsonVal.num b => a == b
  | JsonVal.bool a, JsonVal.bool b => a == b
  | JsonVal.null, JsonVal.null => true
  | JsonVal.arr xs, JsonVal.arr ys => jsonBeqList xs ys
  | JsonVal.obj xs, JsonVal.obj ys => jsonBeqObj xs ys
  | _, _ => false

/-- Elementwise `jsonBeq` on lists. -/
def jsonBeqList : List JsonVal → List JsonVal → Bool
  | [], [] => true
  | x :: xs, y :: ys => jsonBeq x y && jsonBeqList xs ys
  | _, _ => false

/-- Elementwise `jsonBeq` on association lists. -/
def jsonBeqObj : List (String × JsonVal) → List (String × JsonVal) → Bool
  | [], [] => true
  | (k, x) :: xs, (l, y) :: ys => k == l && jsonBeq x y && jsonBeqObj xs ys
  | _, _ => false

end

/-- Python `value is None` test on a JSON-like value. -/
def JsonVal.isNull : JsonVal → Bool
  | JsonVal.null => true
  | _ => false

/-- First-match lookup in an association list, the embedding of the Python
`dict.get(k)` call (returns `none` when the key is absent). -/
def dGet {α : Type} : List (String × α) → String → Option α
  | [], _ => none
  | (k', v) :: rest, k => if k' = k then some v else dGet rest k

/-- Embedding of the Python `k in d` membership test on a dict. -/
def hasKey {α : Type} (d : List (String × α)) (k : String) : Bool :=
  (dGet d k).isSome

/-- Embedding of the Python `d[k] = v` dict assignment: replace the value in
place when the key exists, append the binding otherwise. -/
def dictSet {α : Type} (d : List (String × α)) (k : String) (v : α) :
    List (String × α) :=
  if hasKey d k then d.map (fun p => if p.1 = k then (p.1, v) else p)
  else d ++ [(k, v)]

/-- Embedding of the Python `base.update(kw)` call: values of `kw` overwrite the
values of `base` at shared keys (keeping the base position), and bindings
of `kw` at fresh keys are appended. -/
def dictUpdate {α : Type} (base kw : List (String × α)) : List (String × α) :=
  base.map (fun p => (p.1, (dGet kw p.1).getD p.2)) ++
    kw.filter (fun p => ¬ hasKey base p.1)

@[simp] theorem dGet_nil {α : Type} (k : String) : dGet ([] : List (String × α)) k = none := rfl

@[simp] theorem dGet_cons {α : Type} (k' k : String) (v : α) (rest : List (String × α)) :
    dGet ((k', v) :: rest) k = if k' = k then some v else dGet rest k := rfl

/-! ## The `method` decorator (base_rest/restapi.py, `method`) -/

/-- A `path` or `http_methods` argument of a route spec: in the source either
a plain string or a list of strings. -/
inductive StrOrList where
  | s (x : String)
  | l (xs : List String)
deriving Repr, DecidableEq

/-- Normalisation performed at the top of the decorator loop: a bare string
becomes a one-element list (`if not isinstance(x, list): x = [x]`). -/
def StrOrList.toList : StrOrList → List String
  | StrOrList.s x => [x]
  | StrOrList.l xs => xs

/-- A value stored in the `routing` dict attached by the decorator: the
computed route list, a transformer object, Python `None`, or a passthrough
option value (string / bool). -/
inductive RVal where
  | vStr (s : String)
  | vBool (b : Bool)
  | vNone
  | vRoutes (rs : List (List String × String))
  | vParam (p : String)
deriving Repr, DecidableEq

/-- Python truthiness of an option value (`None`, `False` and the empty
string are falsy). -/
def RVal.truthy : RVal → Bool
  | RVal.vStr s => s ≠ ""
  | RVal.vBool b => b
  | RVal.vNone => false
  | RVal.vRoutes rs => rs ≠ []
  | RVal.vParam _ => true

/-- Truthiness of `kw.get("cors")`: the key is present and its value truthy. -/
def corsTruthy (kw : List (String × RVal)) : Bool :=
  match dGet kw "cors" with
  | some v => v.truthy
  | none => false

/-- Lines 53-54 of `restapi.py`: `OPTIONS` is appended to the verb list of a
registration when `kw.get("cors")` is truthy and `OPTIONS` is not already
listed. -/
def normalizeVerbs (cors : Bool) (http_methods : List String) : List String :=
  if cors ∧ "OPTIONS" ∉ http_methods then http_methods ++ ["OPTIONS"] else http_methods

/-- Lines 47-56 of `restapi.py`: the `_routes` accumulator.  For each route
spec the paths and verbs are normalised to lists and one
`(path-list, verb)` pair is appended per verb. -/
def methodRoutes (kw : List (String × RVal))
    (routes : List (StrOrList × StrOrList)) : List (List String × String) :=
  routes.foldl
    (fun acc r =>
      let paths := r.1.toList
      let http_methods := normalizeVerbs (corsTruthy kw) r.2.toList
      acc ++ http_methods.map (fun m => (paths, m)))
    []

/-- The wrapped callable returned by the decorator: `response_wrap` plus its
attached attributes `routing` and `original_func`.  The handler is embedded
as a function into `Except ε β` so that raising and returning are both
visible. -/
structure Wrapped (ε α β : Type) where
  call : α → Except ε β
  routing : List (String × RVal)
  original_func : α → Except ε β

/-- Lines 46-71 of `restapi.py`: the decorator body.  It computes `_routes`,
builds the `routing` dict (`routes` / `input_param` / `output_param`), merges
the open options bag into it with `routing.update(kw)`, and returns a wrapper
that calls the original function unchanged. -/
def method {ε α β : Type} (routes : List (StrOrList × StrOrList))
    (input_param output_param : RVal) (kw : List (String × RVal))
    (f : α → Except ε β) : Wrapped ε α β :=
  let _routes := methodRoutes kw routes
  let routing := dictUpdate
    [("routes", RVal.vRoutes _routes),
     ("input_param", input_param),
     ("output_param", output_param)] kw
  { call := fun args => f args
  , routing := routing
  , original_func := f }

/-! ## `BinaryData` (base_rest/restapi.py, lines 108-151) -/

/-- An HTTP response as built by the host framework: a byte body and a header
list.  Bytes are embedded as `Nat`s. -/
structure HttpResponse where
  body : List Nat
  headers : List (String × String)
deriving Repr, DecidableEq

/-- Modelled from the spec: the odoo `http.content_disposition(filename)`
collaborator, which renders the generic attachment form of the
`Content-Disposition` header for a file name. -/
def content_disposition (filename : String) : String :=
  "attachment; filename*=UTF-8\x27\x27" ++ filename

/-- Modelled from the spec: the odoo `http.request.make_response(result,
headers)` collaborator, which builds a response from a raw body and an
explicit header list. -/
def make_response (result : List Nat) (headers : List (String × String)) :
    HttpResponse :=
  { body := result, headers := headers }

/-- The result handed to `BinaryData.to_response`: either a fully-formed
`http.Response` built by the handler, or raw bytes
(`isinstance(result, http.Response)` dispatch). -/
inductive BinResult where
  | resp (r : HttpResponse)
  | raw (b : List Nat)
deriving Repr, DecidableEq

/-- The `BinaryData` transformer after its constructor ran: a bare mediatype
string has already been wrapped into a one-element list. -/
structure BinaryData where
  _mediatypes : List String
  _required : Bool
deriving Repr, DecidableEq

/-- Lines 109-113 of `restapi.py`: the `BinaryData` constructor normalises a
single mediatype to a one-element list (default `*/*`). -/
def BinaryData.mk' (mediatypes : StrOrList) (required : Bool) : BinaryData :=
  { _mediatypes := mediatypes.toList, _required := required }

/-- Lines 143-151 of `restapi.py`: `BinaryData._to_http_response`.  The
content type is the single declared mediatype, or the wildcard otherwise;
the header list is fixed and `Content-Length` is the byte length of the
result. -/
def BinaryData.to_http_response (self : BinaryData) (result : List Nat) :
    HttpResponse :=
  let mediatype := match self._mediatypes with
    | [m] => m
    | _ => "*/*"
  make_response result
    [("Content-Type", mediatype),
     ("X-Content-Type-Options", "nosniff"),
     ("Content-Disposition", content_disposition "file"),
     ("Content-Length", toString result.length)]

/-- Lines 134-138 of `restapi.py`: `BinaryData.to_response` passes a
fully-formed response through unchanged and wraps raw bytes via
`_to_http_response`. -/
def BinaryData.to_response (self : BinaryData) (result : BinResult) :
    HttpResponse :=
  match result with
  | BinResult.resp r => r
  | BinResult.raw b => self.to_http_response b

/-- Lines 140-141 of `restapi.py`: `BinaryData.from_params` is the
identity. -/
def BinaryData.from_params (_self : BinaryData) (params : List Nat) :
    List Nat :=
  params

/-! ## The security plugin
(base_rest_auth_api_key/apispec/rest_method_security_plugin.py) -/

/-- A Python exception raised by the plugin code itself (as opposed to an
error value it constructs deliberately). -/
inductive PyError where
  | attributeError (msg : String)
deriving Repr, DecidableEq

/-- One OpenAPI operation, reduced to the field the plugin touches: its
`security` list.  Each security requirement is a one-key dict mapping a
scheme name to a scope list. -/
structure Operation where
  security : Option (List (List (String × List String)))
deriving Repr, DecidableEq

/-- Lines 30-31 of the plugin: `params.setdefault("security", []).append(
{"api_key": []})`. -/
def addApiKeySecurity (p : Operation) : Operation :=
  { security := some ((p.security.getD []) ++ [[("api_key", [])]]) }

/-- Line 27 of the plugin: `routing.get("auth",
self.spec._params.get("default_auth"))`. -/
def effectiveAuth (default_auth : Option RVal) (routing : List (String × RVal)) :
    Option RVal :=
  match dGet routing "auth" with
  | some v => some v
  | none => default_auth

/-- Python truthiness of the `operations` argument (`None` and the empty
dict are falsy). -/
def opsTruthy (operations : Option (List (String × Operation))) : Bool :=
  match operations with
  | none => false
  | some ops => ops ≠ []

/-- Lines 19-31 of the plugin: `RestMethodSecurityPlugin.operation_helper`.
When `routing` is falsy the code calls `super().operation_helper(...)` —
a no-op on the apispec `BasePlugin` — and, lacking a `return`, falls through;
an absent (`None`) routing is then dereferenced by `routing.get` and raises
`AttributeError` whenever `operations` is truthy.  When the effective auth
equals `"api_key"` one `{"api_key": []}` requirement is appended to the `security`
list of every operation. -/
def operation_helper (default_auth : Option RVal)
    (routing : Option (List (String × RVal)))
    (operations : Option (List (String × Operation))) :
    Except PyError (Option (List (String × Operation))) :=
  if ¬ opsTruthy operations then Except.ok operations
  else
    match routing with
    | none => Except.error (PyError.attributeError
        "NoneType object has no attribute get")
    | some r =>
        if effectiveAuth default_auth r = some (RVal.vStr "api_key") then
          Except.ok (operations.map (fun ops =>
            ops.map (fun p => (p.1, addApiKeySecurity p.2))))
        else Except.ok operations

/-! ## Cerberus validation model

The cerberus `Validator` is a third-party collaborator of `restapi.py`.
The model below follows the description the specification gives of its
interface boundary (§3 ValidationSchema, §4.2 SchemaValidating): each field rule
carries a type, a required flag, a nullable flag, a default value and an
enum constraint; normalisation applies declared defaults and, when
`purge_unknown` is set, drops fields not declared in the schema. -/

/-- Modelled from the spec: one cerberus field rule (§3 ValidationSchema). -/
structure FieldRule where
  type : Option String
  required : Bool
  nullable : Bool
  default : Option JsonVal
  enum : Option (List JsonVal)

/-- A field rule with everything off: start from this and override. -/
def FieldRule.any : FieldRule :=
  { type := none, required := false, nullable := false
  , default := none, enum := none }

/-- Modelled from the spec: the cerberus type check for the scalar types the
schemas of this layer use. -/
def typeOk : String → JsonVal → Bool
  | "string", JsonVal.str _ => true
  | "integer", JsonVal.num _ => true
  | "boolean", JsonVal.bool _ => true
  | "list", JsonVal.arr _ => true
  | "dict", JsonVal.obj _ => true
  | _, _ => false

/-- Modelled from the spec: the error messages cerberus produces for a field
that is present in the document. -/
def checkField (r : FieldRule) (v : JsonVal) : List String :=
  if v.isNull then
    if r.nullable then [] else ["null value not allowed"]
  else
    (match r.type with
     | some t => if typeOk t v then [] else ["must be of " ++ t ++ " type"]
     | none => []) ++
    (match r.enum with
     | some allowed =>
         if allowed.any (fun a => jsonBeq a v) then [] else ["unallowed value"]
     | none => [])

/-- Modelled from the spec: the structured field → messages error mapping of
a cerberus validation run.  A declared field that is present is checked
against its rule; a missing field errors only when it is required and has no
default; unknown fields never error (they are purged, not rejected). -/
def cerbErrors (rules : List (String × FieldRule))
    (params : List (String × JsonVal)) : List (String × List String) :=
  rules.filterMap (fun p =>
    match dGet params p.1 with
    | some v =>
        let es := checkField p.2 v
        if es.isEmpty then none else some (p.1, es)
    | none =>
        if p.2.default.isSome then none
        else if p.2.required then some (p.1, ["required field"])
        else none)

/-- Modelled from the spec: the normalised (canonicalised) document of a
cerberus validation run — declared fields keep their given values, unknown
fields are dropped when `purge_unknown` is set, and declared defaults are
filled in for missing fields. -/
def cerbDocument (rules : List (String × FieldRule)) (purge_unknown : Bool)
    (params : List (String × JsonVal)) : List (String × JsonVal) :=
  params.filter (fun p => hasKey rules p.1 || !purge_unknown) ++
    rules.filterMap (fun p =>
      if hasKey params p.1 then none
      else (p.2.default).map (fun d => (p.1, d)))

/-- The observable state of a cerberus validator after `validate(params)`:
the boolean return value, `validator.document` and `validator.errors`. -/
structure CerbResult where
  ok : Bool
  document : List (String × JsonVal)
  errors : List (String × List String)

/-- Modelled from the spec: running `validator.validate(params)` and reading
the `document` and `errors` attributes back. -/
def cerbValidate (rules : List (String × FieldRule)) (purge_unknown : Bool)
    (params : List (String × JsonVal)) : CerbResult :=
  let errors := cerbErrors rules params
  { ok := errors.isEmpty
  , document := cerbDocument rules purge_unknown params
  , errors := errors }

/-- A cerberus `Validator` instance: its schema and its `purge_unknown`
configuration. -/
structure CValidator where
  schema : List (String × FieldRule)
  purge_unknown : Bool

/-! ## `CerberusValidator` (base_rest/restapi.py, lines 154-236) -/

/-- The `_schema` attribute of a `CerberusValidator`: a cerberus rule dict,
a pre-built `Validator` instance, a string naming a provider method, or
`None` (the constructor default). -/
inductive SchemaVal where
  | vdict (rules : List (String × FieldRule))
  | vvalidator (v : CValidator)
  | vnamed (name : String)
  | vnone

/-- The schema-provider collaborator reached through
`service.component(usage="cerberus.validator")`: resolving a schema name for
a direction yields a validator, a rule dict, or something unusable. -/
structure Service where
  get_validator_handler : String → String → SchemaVal

/-- The errors a `CerberusValidator` call can surface: `UserError` (the
BadRequest raised by `from_params`), `SystemError` (raised by
`to_response`), and a plain `Exception` (raised by
`get_cerberus_validator`). -/
inductive RestError where
  | userError (msg : String)
  | systemError (msg : String)
  | exception (msg : String)

/-- Rendering of `validator.errors` into the `%s` slot of the raised
message. -/
def formatErrors (errs : List (String × List String)) : String :=
  String.intercalate ", "
    (errs.map (fun p => p.1 ++ ": " ++ String.intercalate "; " p.2))

/-- Lines 220-232 of `restapi.py`: `CerberusValidator.get_cerberus_validator`.
The direction is asserted to be `input` or `output`; a string schema is
resolved through the provider component of the service; a `Validator` instance is
used directly; a rule dict is wrapped in `Validator(schema,
purge_unknown=True)`; anything else raises. -/
def get_cerberus_validator (self_schema : SchemaVal) (service : Service)
    (direction : String) : Except RestError CValidator :=
  if ¬ (direction = "input" ∨ direction = "output") then
    Except.error (RestError.exception "assertion failed")
  else
    let schema := match self_schema with
      | SchemaVal.vnamed n => service.get_validator_handler n direction
      | s => s
    match schema with
    | SchemaVal.vvalidator v => Except.ok v
    | SchemaVal.vdict rules => Except.ok { schema := rules, purge_unknown := true }
    | _ => Except.error (RestError.exception "Unable to get cerberus schema")

/-- Lines 168-172 of `restapi.py`: `CerberusValidator.from_params` validates
against the input-direction validator, returns `validator.document` on
success and raises `UserError("BadRequest %s" % validator.errors)` on
failure. -/
def CerberusValidator.from_params (self_schema : SchemaVal) (service : Service)
    (params : List (String × JsonVal)) :
    Except RestError (List (String × JsonVal)) :=
  match get_cerberus_validator self_schema service "input" with
  | Except.error e => Except.error e
  | Except.ok validator =>
      let r := cerbValidate validator.schema validator.purge_unknown params
      if r.ok then Except.ok r.document
      else Except.error (RestError.userError ("BadRequest " ++ formatErrors r.errors))

/-- Lines 174-178 of `restapi.py`: `CerberusValidator.to_response` validates
against the output-direction validator, returns `validator.document` on
success and raises `SystemError("Invalid Response %s" % validator.errors)`
on failure. -/
def CerberusValidator.to_response (self_schema : SchemaVal) (service : Service)
    (result : List (String × JsonVal)) :
    Except RestError (List (String × JsonVal)) :=
  match get_cerberus_validator self_schema service "output" with
  | Except.error e => Except.error e
  | Except.ok validator =>
      let r := cerbValidate validator.schema validator.purge_unknown result
      if r.ok then Except.ok r.document
      else Except.error (RestError.systemError ("Invalid Response " ++ formatErrors r.errors))

/-! ## Query-parameter documentation
(base_rest/restapi.py, lines 180-207, `to_openapi_query_parameters`) -/

/-- Python truthiness of a JSON-like value (`None`, `False`, `0`, the empty
string and empty containers are falsy). -/
def jsonTruthy : JsonVal → Bool
  | JsonVal.str s => s ≠ ""
  | JsonVal.num n => n ≠ 0
  | JsonVal.bool b => b
  | JsonVal.null => false
  | JsonVal.arr xs => !xs.isEmpty
  | JsonVal.obj fields => !fields.isEmpty

/-- One property of the JSON-Schema-like mapping produced by
`cerberus_to_json` (the schema-conversion engine, §4.3 of the spec, whose
output carries `type`, `nullable`, `default`, a nested `schema`, `items` and
`enum`).  `type` is total because the generator reads `spec["type"]`
unconditionally. -/
structure PropSpec where
  type : String
  nullable : Bool
  default : Option JsonVal
  schema : Option (List (String × JsonVal))
  items : Option JsonVal
  enum : Option (List JsonVal)

/-- One generated OpenAPI query parameter (the `params` dict of the source;
its constant `"in": "query"` entry is omitted). -/
structure QueryParam where
  name : String
  required : Bool
  allowEmptyValue : Bool
  default : Option JsonVal
  schema : List (String × JsonVal)

/-- Lines 183-205 of `restapi.py`: the body of the property loop.  The
schema of a parameter is the nested schema of the field when truthy, else
`{"type": spec["type"]}`; truthy `items` and a present `enum` are copied
into it; the name of an array-typed field gets the literal `[]` suffix
(the source mutates the already-appended dict, which is equivalent). -/
def buildQueryParam (required_list : List String) (prop : String)
    (spec : PropSpec) : QueryParam :=
  let base : List (String × JsonVal) :=
    match spec.schema with
    | some s => if !s.isEmpty then s else [("type", JsonVal.str spec.type)]
    | none => [("type", JsonVal.str spec.type)]
  let withItems := match spec.items with
    | some it => if jsonTruthy it then dictSet base "items" it else base
    | none => base
  let withEnum := match spec.enum with
    | some e => dictSet withItems "enum" (JsonVal.arr e)
    | none => withItems
  { name := if spec.type = "array" then prop ++ "[]" else prop
  , required := required_list.contains prop
  , allowEmptyValue := spec.nullable
  , default := spec.default
  , schema := withEnum }

/-- Lines 180-207 of `restapi.py`: `CerberusValidator.
to_openapi_query_parameters`, over the `properties` and `required` entries
of the converted JSON schema. -/
def to_openapi_query_parameters (properties : List (String × PropSpec))
    (required_list : List String) : List QueryParam :=
  properties.map (fun p => buildQueryParam required_list p.1 p.2)

/-! ## Helper lemmas -/

/-- Folding with append from an accumulator is the accumulator followed by
the flattened map. -/
theorem foldl_append_eq_flatMap {α β : Type} (g : α → List β) (l : List α)
    (acc : List β) :
    l.foldl (fun a x => a ++ g x) acc = acc ++ l.flatMap g := by
  induction l generalizing acc with
  | nil => simp
  | cons h t ih => simp [ih, List.append_assoc]

/-- A key absent from a dict is absent from any filtered version of it. -/
theorem dGet_filter_of_none {α : Type} (q : String × α → Bool)
    (l : List (String × α)) (k : String) (h : dGet l k = none) :
    dGet (l.filter q) k = none := by
  induction l with
  | nil => simp
  | cons p t ih =>
      rw [dGet_cons] at h
      by_cases hk : p.1 = k
      · simp [hk] at h
      · rcases hq : q p with _ | _
        · simp [List.filter, hq]
          exact ih (by simpa [hk] using h)
        · simp [List.filter, hq, dGet, hk]
          exact ih (by simpa [hk] using h)

/-- A key absent from a dict is absent from a key-preserving `filterMap` of
it. -/
theorem dGet_filterMap_of_none {α β : Type} (f : String × α → Option (String × β))
    (hf : ∀ p q, f p = some q → q.1 = p.1)
    (l : List (String × α)) (k : String) (h : dGet l k = none) :
    dGet (l.filterMap f) k = none := by
  induction l with
  | nil => simp
  | cons p t ih =>
      rw [dGet_cons] at h
      by_cases hk : p.1 = k
      · simp [hk] at h
      · have ht : dGet (t.filterMap f) k = none := ih (by simpa [hk] using h)
        rcases hq : f p with _ | q
        · simpa [List.filterMap_cons, hq] using ht
        · have : q.1 = p.1 := hf p q hq
          simp [List.filterMap_cons, hq, dGet, this, hk]
          exact ht

/-- `dGet` distributes over append, looking left first. -/
theorem dGet_append {α : Type} (a b : List (String × α)) (k : String) :
    dGet (a ++ b) k = match dGet a k with
      | some v => some v
      | none => dGet b k := by
  induction a with
  | nil => simp
  | cons p t ih =>
      by_cases hk : p.1 = k
      · simp [dGet, hk]
      · simp [dGet, hk, ih]

/-! ## Claims about the decorator -/

/-- C1 (counterexample): the `routes` entry is not a deduplicated sequence of
individual `(path, verb)` pairs.  A two-path spec yields a single
`(path-list, verb)` element instead of two flattened pairs, and a repeated
verb yields a literal duplicate that is not removed. -/
theorem c1_routes_counterexample :
    methodRoutes [] [(StrOrList.l ["/a", "/b"], StrOrList.s "GET")] =
      [(["/a", "/b"], "GET")] ∧
    ¬ (methodRoutes [] [(StrOrList.s "/a", StrOrList.l ["GET", "GET"])]).Nodup := by
  decide

/-- C1 (amended): the `routes` entry of the routing metadata is, in route-spec
order, one `(normalized-path-list, verb)` pair per verb of the normalized
verb list; path lists are kept whole rather than crossed into individual
paths, and duplicates are kept. -/
theorem c1_routes_grouped {ε α β : Type} (routes : List (StrOrList × StrOrList))
    (input_param output_param : RVal) (kw : List (String × RVal))
    (f : α → Except ε β) :
    methodRoutes kw routes =
      routes.flatMap (fun r =>
        (normalizeVerbs (corsTruthy kw) r.2.toList).map (fun m => (r.1.toList, m))) ∧
    (dGet kw "routes" = none →
      dGet (method routes input_param output_param kw f).routing "routes" =
        some (RVal.vRoutes (methodRoutes kw routes))) := by
  constructor
  · simpa [methodRoutes] using foldl_append_eq_flatMap
      (fun r : StrOrList × StrOrList =>
        (normalizeVerbs (corsTruthy kw) r.2.toList).map (fun m => (r.1.toList, m)))
      routes []
  · intro h
    simp [method, dictUpdate, dGet, h]

/-- C1 (witness): the amended theorem evaluated on a concrete registration of
one path with two verbs. -/
theorem c1_routes_grouped_witness :
    dGet (@method Unit Unit Unit
        [(StrOrList.s "/a", StrOrList.l ["GET", "POST"])]
        RVal.vNone RVal.vNone [] (fun _ => Except.ok ())).routing "routes" =
      some (RVal.vRoutes [(["/a"], "GET"), (["/a"], "POST")]) :=
  (c1_routes_grouped [(StrOrList.s "/a", StrOrList.l ["GET", "POST"])]
    RVal.vNone RVal.vNone [] (fun _ => Except.ok ())).2 rfl

/-- C8: `OPTIONS` is among the verbs registered for a route spec iff
`kw.get("cors")` is truthy or `OPTIONS` was already listed, and when cors is
set and `OPTIONS` absent it is appended exactly once at the end of the verb
list before the `(path-list, verb)` combinations are computed. -/
theorem c8_cors_options (kw : List (String × RVal)) (paths verbs : StrOrList) :
    ("OPTIONS" ∈ (methodRoutes kw [(paths, verbs)]).map Prod.snd ↔
      corsTruthy kw = true ∨ "OPTIONS" ∈ verbs.toList) ∧
    (corsTruthy kw = true → "OPTIONS" ∉ verbs.toList →
      normalizeVerbs (corsTruthy kw) verbs.toList = verbs.toList ++ ["OPTIONS"]) ∧
    (corsTruthy kw = false → normalizeVerbs (corsTruthy kw) verbs.toList = verbs.toList) := by
  have hroutes : (methodRoutes kw [(paths, verbs)]).map Prod.snd =
      normalizeVerbs (corsTruthy kw) verbs.toList := by
    simp [methodRoutes, List.map_map, Function.comp]
  refine ⟨?_, ?_, ?_⟩
  · rw [hroutes]
    by_cases hc : corsTruthy kw <;>
      by_cases hm : "OPTIONS" ∈ verbs.toList <;>
        simp [normalizeVerbs, hc, hm]
  · intro hc hm
    simp [normalizeVerbs, hc, hm]
  · intro hc
    simp [normalizeVerbs, hc]

/-- C8 (witness): with `cors` set and `OPTIONS` absent, `OPTIONS` is
registered and appended once after `GET`. -/
theorem c8_cors_options_witness :
    ("OPTIONS" ∈ (methodRoutes [("cors", RVal.vStr "*")]
        [(StrOrList.s "/a", StrOrList.s "GET")]).map Prod.snd) ∧
    normalizeVerbs (corsTruthy [("cors", RVal.vStr "*")]) ["GET"] =
      ["GET", "OPTIONS"] := by
  constructor
  · exact ((c8_cors_options [("cors", RVal.vStr "*")]
      (StrOrList.s "/a") (StrOrList.s "GET")).1).mpr (Or.inl (by decide))
  · exact (c8_cors_options [("cors", RVal.vStr "*")]
      (StrOrList.s "/a") (StrOrList.s "GET")).2.1 (by decide) (by decide)

/-- C9: the wrapped callable returned by the decorator calls the original
function — same result, same raised error — and the original callable stays
reachable unmodified through `original_func`. -/
theorem c9_wrapper_behaviour {ε α β : Type} (routes : List (StrOrList × StrOrList))
    (input_param output_param : RVal) (kw : List (String × RVal))
    (f : α → Except ε β) :
    (∀ args, (method routes input_param output_param kw f).call args = f args) ∧
    (method routes input_param output_param kw f).original_func = f :=
  ⟨fun _ => rfl, rfl⟩

/-- C10: an options-bag key named `routes`, `input_param` or `output_param`
silently overwrites the corresponding computed entry of the attached routing
metadata, because `routing.update(kw)` runs after those entries are set. -/
theorem c10_kw_overrides {ε α β : Type} (routes : List (StrOrList × StrOrList))
    (input_param output_param : RVal) (kw : List (String × RVal))
    (f : α → Except ε β) :
    (∀ v, dGet kw "routes" = some v →
      dGet (method routes input_param output_param kw f).routing "routes" = some v) ∧
    (∀ v, dGet kw "input_param" = some v →
      dGet (method routes input_param output_param kw f).routing "input_param" = some v) ∧
    (∀ v, dGet kw "output_param" = some v →
      dGet (method routes input_param output_param kw f).routing "output_param" = some v) := by
  refine ⟨?_, ?_, ?_⟩ <;> intro v h <;> simp [method, dictUpdate, dGet, h]

/-- C10 (witness): a `routes` key in the options bag replaces the computed
route list in the attached metadata. -/
theorem c10_kw_overrides_witness :
    dGet (@method Unit Unit Unit [(StrOrList.s "/a", StrOrList.s "GET")]
        RVal.vNone RVal.vNone [("routes", RVal.vStr "overridden")]
        (fun _ => Except.ok ())).routing "routes" =
      some (RVal.vStr "overridden") :=
  (c10_kw_overrides [(StrOrList.s "/a", StrOrList.s "GET")]
    RVal.vNone RVal.vNone [("routes", RVal.vStr "overridden")]
    (fun _ => Except.ok ())).1 (RVal.vStr "overridden") rfl

/-! ## Claims about the security plugin and `BinaryData` -/

/-- C4: when the routing metadata of an operation declares `auth: api_key` — or
inherits it from the spec-wide default while `auth` is absent — the plugin
appends exactly one `{"api_key": []}` requirement to the security list
of each operation; for any other effective auth value the operations are left
unchanged. -/
theorem c4_api_key_security (default_auth : Option RVal)
    (r : List (String × RVal)) (ops : List (String × Operation)) :
    (dGet r "auth" = some (RVal.vStr "api_key") ∨
        (dGet r "auth" = none ∧ default_auth = some (RVal.vStr "api_key")) →
      operation_helper default_auth (some r) (some ops) =
        Except.ok (some (ops.map (fun p =>
          (p.1, { security := some ((p.2.security.getD []) ++ [[("api_key", [])]]) }))))) ∧
    (effectiveAuth default_auth r ≠ some (RVal.vStr "api_key") →
      operation_helper default_auth (some r) (some ops) = Except.ok (some ops)) := by
  constructor
  · intro h
    have heff : effectiveAuth default_auth r = some (RVal.vStr "api_key") := by
      rcases h with h | ⟨h1, h2⟩
      · simp [effectiveAuth, h]
      · simp [effectiveAuth, h1, h2]
    cases ops with
    | nil => simp [operation_helper, opsTruthy]
    | cons a t => simp [operation_helper, opsTruthy, heff, addApiKeySecurity]
  · intro h
    cases ops with
    | nil => simp [operation_helper, opsTruthy]
    | cons a t => simp [operation_helper, opsTruthy, h]

/-- C4 (witness): one operation with `auth: api_key` gains exactly the
`{"api_key": []}` security requirement. -/
theorem c4_api_key_security_witness :
    operation_helper none (some [("auth", RVal.vStr "api_key")])
        (some [("get", { security := none })]) =
      Except.ok (some [("get", { security := some [[("api_key", [])]] })]) :=
  (c4_api_key_security none [("auth", RVal.vStr "api_key")]
    [("get", { security := none })]).1 (Or.inl rfl)

/-- C5 (code bug): when no routing metadata is in the keyword arguments and
the operations mapping is non-empty, `operation_helper` does not defer and
complete — the branch that calls `super()` lacks a `return`, so the `None`
routing is dereferenced and an `AttributeError` is raised. -/
theorem c5_missing_return_bug :
    operation_helper none none (some [("get", { security := none })]) =
      Except.error (PyError.attributeError
        "NoneType object has no attribute get") := by
  rfl

/-- C6: `BinaryData.to_response` passes a fully-formed response through
unchanged; on raw bytes it builds a response whose body is the payload and
whose headers are exactly `Content-Type` (the single declared media type, or
the wildcard when several are declared), `X-Content-Type-Options: nosniff`,
the generic file `Content-Disposition`, and `Content-Length` equal to the
byte length of the payload. -/
theorem c6_binary_response (mts : List String) (req : Bool) (b : List Nat)
    (r : HttpResponse) :
    BinaryData.to_response { _mediatypes := mts, _required := req }
        (BinResult.resp r) = r ∧
    (BinaryData.to_response { _mediatypes := mts, _required := req }
        (BinResult.raw b)).body = b ∧
    (∀ m, mts = [m] →
      (BinaryData.to_response { _mediatypes := mts, _required := req }
          (BinResult.raw b)).headers =
        [("Content-Type", m), ("X-Content-Type-Options", "nosniff"),
         ("Content-Disposition", content_disposition "file"),
         ("Content-Length", toString b.length)]) ∧
    (2 ≤ mts.length →
      (BinaryData.to_response { _mediatypes := mts, _required := req }
          (BinResult.raw b)).headers =
        [("Content-Type", "*/*"), ("X-Content-Type-Options", "nosniff"),
         ("Content-Disposition", content_disposition "file"),
         ("Content-Length", toString b.length)]) := by
  refine ⟨rfl, rfl, ?_, ?_⟩
  · intro m hm
    subst hm
    rfl
  · intro h2
    rcases mts with _ | ⟨a, _ | ⟨c, rest⟩⟩
    · simp at h2
    · simp at h2
    · rfl

/-- C6 (witness): a 5-byte payload with media type `image/png` gets the four
exact headers, with `Content-Length: 5`. -/
theorem c6_binary_response_witness :
    (BinaryData.to_response { _mediatypes := ["image/png"], _required := false }
        (BinResult.raw [10, 20, 30, 40, 50])).headers =
      [("Content-Type", "image/png"),
       ("X-Content-Type-Options", "nosniff"),
       ("Content-Disposition", "attachment; filename*=UTF-8\x27\x27file"),
       ("Content-Length", "5")] :=
  (c6_binary_response ["image/png"] false [10, 20, 30, 40, 50]
    { body := [], headers := [] }).2.2.1 "image/png" rfl

/-! ## More dict lemmas, for the canonical-document claim -/

/-- Filtering by a predicate that rejects every binding of key `k` removes
`k` from the dict. -/
theorem dGet_filter_of_pred_false {α : Type} (q : String × α → Bool)
    (l : List (String × α)) (k : String) (hq : ∀ v, q (k, v) = false) :
    dGet (l.filter q) k = none := by
  induction l with
  | nil => simp
  | cons p t ih =>
      obtain ⟨a, b⟩ := p
      by_cases hk : a = k
      · subst hk
        simp [List.filter, hq b, ih]
      · rcases hqp : q (a, b) with _ | _
        · simpa [List.filter, hqp] using ih
        · simpa [List.filter, hqp, dGet, hk] using ih

/-- Filtering by a predicate that accepts every binding of key `k` leaves the
lookup of `k` unchanged. -/
theorem dGet_filter_of_pred_true {α : Type} (q : String × α → Bool)
    (l : List (String × α)) (k : String) (hq : ∀ v, q (k, v) = true) :
    dGet (l.filter q) k = dGet l k := by
  induction l with
  | nil => simp
  | cons p t ih =>
      obtain ⟨a, b⟩ := p
      by_cases hk : a = k
      · subst hk
        simp [List.filter, hq b, dGet]
      · rcases hqp : q (a, b) with _ | _
        · simpa [List.filter, hqp, dGet, hk] using ih
        · simpa [List.filter, hqp, dGet, hk] using ih

/-- Looking up the default filled in by `cerbDocument` for a declared field
that is missing from the parameters. -/
theorem dGet_cerb_defaults (rules : List (String × FieldRule))
    (params : List (String × JsonVal)) (k : String) (r : FieldRule) (d : JsonVal)
    (hr : dGet rules k = some r) (hp : dGet params k = none)
    (hd : r.default = some d) :
    dGet (rules.filterMap (fun p =>
      if hasKey params p.1 then none
      else (p.2.default).map (fun dv => (p.1, dv)))) k = some d := by
  induction rules with
  | nil => simp at hr
  | cons p t ih =>
      by_cases hk : p.1 = k
      · rw [dGet_cons, if_pos hk] at hr
        injection hr with hr'
        subst hr'
        have hkey : hasKey params k = false := by
          simp [hasKey, hp]
        simp [List.filterMap_cons, hk, hkey, hd, dGet]
      · rw [dGet_cons, if_neg hk] at hr
        have ht := ih hr
        by_cases hkp : hasKey params p.1
        · simpa [List.filterMap_cons, hkp] using ht
        · rcases hdp : p.2.default with _ | dd
          · simpa [List.filterMap_cons, hkp, hdp] using ht
          · simpa [List.filterMap_cons, hkp, hdp, dGet, hk] using ht

/-! ## Claims about `CerberusValidator` -/

/-- `get_cerberus_validator` never raises the client-fault `UserError`: its
own failures are plain `Exception`s. -/
theorem get_cerberus_validator_not_userError (sv : SchemaVal) (svc : Service)
    (dir m : String) :
    get_cerberus_validator sv svc dir ≠ Except.error (RestError.userError m) := by
  intro heq
  unfold get_cerberus_validator at heq
  split at heq
  · simp at heq
  · split at heq
    · rename_i n
      cases hh : svc.get_validator_handler n dir <;> simp [hh] at heq
    · cases sv <;> simp at heq

/-- C2: an input failing schema validation makes `from_params` raise the
BadRequest `UserError` carrying the full formatted field-level errors, an
output failing the schema makes `to_response` raise `SystemError` carrying
them, and `to_response` can never produce the client-fault `UserError`
type. -/
theorem c2_error_types (rules : List (String × FieldRule)) (service : Service)
    (params result : List (String × JsonVal))
    (hin : (cerbValidate rules true params).ok = false)
    (hout : (cerbValidate rules true result).ok = false) :
    CerberusValidator.from_params (SchemaVal.vdict rules) service params =
      Except.error (RestError.userError
        ("BadRequest " ++ formatErrors (cerbValidate rules true params).errors)) ∧
    CerberusValidator.to_response (SchemaVal.vdict rules) service result =
      Except.error (RestError.systemError
        ("Invalid Response " ++ formatErrors (cerbValidate rules true result).errors)) ∧
    (∀ (sv : SchemaVal) (svc : Service) (res : List (String × JsonVal)) (m : String),
      CerberusValidator.to_response sv svc res ≠
        Except.error (RestError.userError m)) := by
  refine ⟨?_, ?_, ?_⟩
  · simp [CerberusValidator.from_params, get_cerberus_validator, hin]
  · simp [CerberusValidator.to_response, get_cerberus_validator, hout]
  · intro sv svc res m heq
    cases hcv : get_cerberus_validator sv svc "output" with
    | error e =>
        simp [CerberusValidator.to_response, hcv] at heq
        exact get_cerberus_validator_not_userError sv svc "output" m
          (by rw [hcv, heq])
    | ok validator =>
        by_cases hr : (cerbValidate validator.schema validator.purge_unknown res).ok
        · simp [CerberusValidator.to_response, hcv, hr] at heq
        · simp [CerberusValidator.to_response, hcv, hr] at heq

/-- A trivial schema-provider collaborator used by the concrete witnesses. -/
def demoService : Service :=
  { get_validator_handler := fun _ _ => SchemaVal.vnone }

/-- A one-field schema requiring a string `foo`, used by the C2 witness. -/
def demoRules : List (String × FieldRule) :=
  [("foo", { type := some "string", required := true, nullable := false
           , default := none, enum := none })]

/-- C2 (witness): an integer where a string is required makes `from_params`
raise `UserError` and `to_response` raise `SystemError`. -/
theorem c2_error_types_witness :
    ∃ m1 m2,
      CerberusValidator.from_params (SchemaVal.vdict demoRules) demoService
          [("foo", JsonVal.num 1)] = Except.error (RestError.userError m1) ∧
      CerberusValidator.to_response (SchemaVal.vdict demoRules) demoService
          [("foo", JsonVal.num 1)] = Except.error (RestError.systemError m2) := by
  have h := c2_error_types demoRules demoService [("foo", JsonVal.num 1)]
    [("foo", JsonVal.num 1)] (by rfl) (by rfl)
  exact ⟨_, _, h.1, h.2.1⟩

/-- C3: on parameters that satisfy an inline rule-mapping schema,
`from_params` returns the canonicalised document: fields not declared in the
schema are purged, declared defaults are filled in for missing fields, and
declared fields that were given keep their value. -/
theorem c3_canonical_document (rules : List (String × FieldRule))
    (service : Service) (params : List (String × JsonVal))
    (hok : (cerbValidate rules true params).ok = true) :
    ∃ doc, CerberusValidator.from_params (SchemaVal.vdict rules) service params =
        Except.ok doc ∧
      (∀ k, dGet rules k = none → dGet doc k = none) ∧
      (∀ k r d, dGet rules k = some r → dGet params k = none →
        r.default = some d → dGet doc k = some d) ∧
      (∀ k v r, dGet rules k = some r → dGet params k = some v →
        dGet doc k = some v) := by
  refine ⟨(cerbValidate rules true params).document, ?_, ?_, ?_, ?_⟩
  · simp [CerberusValidator.from_params, get_cerberus_validator, hok]
  · intro k hk
    have hkey : hasKey rules k = false := by simp [hasKey, hk]
    simp only [cerbValidate, cerbDocument, dGet_append]
    rw [dGet_filter_of_pred_false _ _ _ (fun v => by simp [hkey]),
      dGet_filterMap_of_none _ ?_ _ _ hk]
    intro p q hfq
    by_cases hkp : hasKey params p.1
    · simp [hkp] at hfq
    · rcases hdp : p.2.default with _ | dd
      · simp [hkp, hdp] at hfq
      · simp [hkp, hdp] at hfq
        rw [← hfq]
  · intro k r d hr hp hd
    simp only [cerbValidate, cerbDocument, dGet_append]
    rw [dGet_filter_of_none _ _ _ hp, dGet_cerb_defaults rules params k r d hr hp hd]
  · intro k v r hr hpv
    have hkey : hasKey rules k = true := by simp [hasKey, hr]
    simp only [cerbValidate, cerbDocument, dGet_append]
    rw [dGet_filter_of_pred_true _ _ _ (fun w => by simp [hkey]), hpv]

/-- A two-field schema with a defaulted `name`, used by the C3 witness. -/
def c3Rules : List (String × FieldRule) :=
  [("name", { type := some "string", required := false, nullable := false
            , default := some (JsonVal.str "anon"), enum := none }),
   ("age", { type := some "integer", required := false, nullable := false
           , default := none, enum := none })]

/-- C3 (witness): the returned document purges the undeclared `junk` field,
fills in the declared default for `name`, and keeps the given `age`. -/
theorem c3_canonical_document_witness :
    ∃ doc, CerberusValidator.from_params (SchemaVal.vdict c3Rules) demoService
        [("age", JsonVal.num 7), ("junk", JsonVal.str "x")] = Except.ok doc ∧
      dGet doc "junk" = none ∧
      dGet doc "name" = some (JsonVal.str "anon") ∧
      dGet doc "age" = some (JsonVal.num 7) := by
  obtain ⟨doc, hdoc, hundecl, hdef, hkeep⟩ :=
    c3_canonical_document c3Rules demoService
      [("age", JsonVal.num 7), ("junk", JsonVal.str "x")] (by rfl)
  exact ⟨doc, hdoc, hundecl "junk" rfl, hdef "name" _ _ rfl rfl rfl,
    hkeep "age" (JsonVal.num 7) _ rfl rfl⟩

/-- C7: in the generated query-parameter list, an array-typed top-level field
is exposed under its name with a literal `[]` suffix appended, and every
non-array field keeps its name unchanged. -/
theorem c7_array_suffix (properties : List (String × PropSpec))
    (required_list : List String) :
    (to_openapi_query_parameters properties required_list).map QueryParam.name =
      properties.map (fun p => if p.2.type = "array" then p.1 ++ "[]" else p.1) := by
  induction properties with
  | nil => rfl
  | cons p t ih =>
      simp only [to_openapi_query_parameters, List.map_cons] at ih ⊢
      rw [ih]
      rfl

end RestFramework
